import Mathlib

/-!
Verification of the core trading logic of the `leo_vrz` repository.

The Python source is shallowly embedded: prices are exact rationals (`ℚ`),
contract counts are integers (`ℤ`), Python `int(x)` truncation toward zero
is `ratTrunc`, and fallible paths (uncaught `ZeroDivisionError`, failed
external orders) are modelled with `Option`.  Each definition mirrors one
Python function; the mapping is recorded in its doc comment.  Wall-clock
timestamps and log output are dropped throughout: they never feed back into
any computed value.
-/

set_option maxHeartbeats 1000000

/-- Python `int(x)` applied to a number: truncation toward zero. -/
def ratTrunc (q : ℚ) : ℤ := if 0 ≤ q then ⌊q⌋ else -⌊-q⌋

/-- Position side, source `config/constants.py`: `SIDE_BUY`, `SIDE_SELL`. -/
inductive Side where
  | buy
  | sell
deriving DecidableEq, Repr

/-- One OHLC candle (the source passes candles as dicts with keys
`time, open, high, low, close, volume`).  The `open` key is a Lean keyword,
rendered here as `opn`. -/
structure Candle where
  time : ℤ
  opn : ℚ
  high : ℚ
  low : ℚ
  close : ℚ
  volume : ℚ
deriving DecidableEq, Repr

instance : Inhabited Candle := ⟨⟨0, 0, 0, 0, 0, 0⟩⟩

/-- Zone type, source `config/constants.py`: `ZONE_TYPE_RESISTANCE`,
`ZONE_TYPE_SUPPORT`.  The source compares `zone['type'] == 'resistance'`
and treats everything else as support. -/
inductive ZoneType where
  | resistance
  | support
deriving DecidableEq, Repr

/-- Zone status, source `config/constants.py`: `ZONE_STATUS_ACTIVE`,
`ZONE_STATUS_INVALIDATED`. -/
inductive ZoneStatus where
  | active
  | invalidated
deriving DecidableEq, Repr

/-- Breach details recorded by `VRZRepository.check_and_invalidate`
(`src/database/repositories/vrz_repository.py:75-79`); the wall-clock
`breach_time` field is dropped. -/
structure BreachDetails where
  breach_price : ℚ
  breach_timeframe : String
deriving DecidableEq, Repr

/-- A VRZ zone document as stored in the `vrz_zones` collection
(`src/database/models.py` / `vrz_repository.py`).  Creation timestamps and
Mongo ids are dropped; list position identifies a zone. -/
structure Zone where
  symbol : String
  timeframe : String
  type : ZoneType
  price_level : ℚ
  zone_upper : ℚ
  zone_lower : ℚ
  status : ZoneStatus
  breach_details : Option BreachDetails
deriving DecidableEq, Repr

instance : Inhabited Zone :=
  ⟨⟨"", "", ZoneType.resistance, 0, 0, 0, ZoneStatus.active, none⟩⟩

namespace PatternDetector

/-- Pattern direction strings `'bullish'` / `'bearish'` from the detector
result dicts. -/
inductive Direction where
  | bullish
  | bearish
deriving DecidableEq, Repr

/-- A pattern-match dict as produced by the `PatternDetector.detect_*`
methods (`src/strategies/pattern_detector.py`); the `detected` flag is
carried by the surrounding `Option`, and `candles_involved` is dropped. -/
structure Pattern where
  pattern_name : String
  direction : Direction
  confidence : ℚ
  pattern_high : ℚ
  pattern_low : ℚ
deriving DecidableEq, Repr

instance : Inhabited Pattern := ⟨⟨"", Direction.bullish, 0, 0, 0⟩⟩

/-- `PatternDetector._get_body_size` (`src/strategies/pattern_detector.py:14-16`). -/
def body_size (candle : Candle) : ℚ := |candle.close - candle.opn|

/-- `PatternDetector._get_upper_shadow` (`src/strategies/pattern_detector.py:26-28`). -/
def upper_shadow (candle : Candle) : ℚ := candle.high - max candle.opn candle.close

/-- `PatternDetector._get_lower_shadow` (`src/strategies/pattern_detector.py:30-32`). -/
def lower_shadow (candle : Candle) : ℚ := min candle.opn candle.close - candle.low

/-- `PatternDetector.detect_hammer` (`src/strategies/pattern_detector.py:640-674`).
The Python `body_size / total_range` raises `ZeroDivisionError` when
`high = low`; here `/` is Lean's total division, so the definition is only
used (and the claims only speak) about candles with `high > low`. -/
def detect_hammer (candles : List Candle) (index : ℕ) : Option Pattern :=
  let candle := candles.getD index default
  let body := body_size candle
  let lower := lower_shadow candle
  let upper := upper_shadow candle
  let total_range := candle.high - candle.low
  if body * 2 ≤ lower ∧ upper < body * (3/10) ∧ body / total_range < 3/10 then
    some { pattern_name := "hammer", direction := Direction.bullish,
           confidence := 7/10, pattern_high := candle.high, pattern_low := candle.low }
  else
    none

end PatternDetector

namespace SwingDetector

/-- `SwingDetector.is_valid_swing_high` (`src/strategies/swing_detector.py:22-54`).
The Python loop over `range(index - left_bars, index)` is rendered as an
`all` over `k < left_bars` at positions `index - left_bars + k`, and the
loop over `range(index + 1, index + right_bars + 1)` as an `all` over
`k < right_bars` at positions `index + 1 + k`.  The boundary test
`index >= len(candles) - right_bars` is `len ≤ index + right_bars`. -/
def is_valid_swing_high (left_bars right_bars : ℕ) (candles : List Candle)
    (index : ℕ) : Bool × ℚ × ℕ :=
  if index < left_bars ∨ candles.length ≤ index + right_bars then (false, 0, index)
  else if ((List.range left_bars).all fun k =>
        decide ((candles.getD (index - left_bars + k) default).high <
          (candles.getD index default).high)) &&
      ((List.range right_bars).all fun k =>
        decide ((candles.getD (index + 1 + k) default).high <
          (candles.getD index default).high)) then
    (true, (candles.getD index default).high, index)
  else (false, 0, index)

/-- `SwingDetector.is_valid_swing_low` (`src/strategies/swing_detector.py:56-88`). -/
def is_valid_swing_low (left_bars right_bars : ℕ) (candles : List Candle)
    (index : ℕ) : Bool × ℚ × ℕ :=
  if index < left_bars ∨ candles.length ≤ index + right_bars then (false, 0, index)
  else if ((List.range left_bars).all fun k =>
        decide ((candles.getD index default).low <
          (candles.getD (index - left_bars + k) default).low)) &&
      ((List.range right_bars).all fun k =>
        decide ((candles.getD index default).low <
          (candles.getD (index + 1 + k) default).low)) then
    (true, (candles.getD index default).low, index)
  else (false, 0, index)

end SwingDetector

namespace RiskManager

/-- `config/constants.py` `PARTIAL_EXIT_PERCENTAGES`; the source reads it
with `.get(num_targets, [100])`, so every other key yields `[100]`. -/
def PARTIAL_EXIT_PERCENTAGES (num_targets : ℕ) : List ℚ :=
  match num_targets with
  | 2 => [50, 50]
  | 3 => [33, 33, 34]
  | 4 => [25, 25, 25, 25]
  | _ => [100]

/-- Loop body of `RiskManager.calculate_partial_exits`
(`src/strategies/risk_manager.py:315-324`): every target except the last
exits `max(1, int(position_size * percentage / 100))` contracts and is
subtracted from the running remainder; the last target receives whatever
remains. -/
def partialExitsGo (position_size : ℤ) : List ℚ → ℤ → List ℤ
  | [], _ => []
  | [_], remaining => [remaining]
  | p :: q :: rest, remaining =>
    let qty : ℤ := max 1 (ratTrunc ((position_size : ℚ) * (p / 100)))
    qty :: partialExitsGo position_size (q :: rest) (remaining - qty)

/-- `RiskManager.calculate_partial_exits` (`src/strategies/risk_manager.py:296-326`). -/
def calculate_partial_exits (position_size : ℤ) (num_targets : ℕ) : List ℤ :=
  partialExitsGo position_size (PARTIAL_EXIT_PERCENTAGES num_targets) position_size

/-- `RiskManager.calculate_stop_loss` (`src/strategies/risk_manager.py:25-59`). -/
def calculate_stop_loss (entry_price : ℚ) (side : Side) (pattern_high pattern_low : ℚ)
    (stop_pips : ℕ) : ℚ :=
  let pip_value := entry_price * (1/10000) * stop_pips
  match side with
  | Side.buy => pattern_low - pip_value
  | Side.sell => pattern_high + pip_value

/-- `RiskManager.calculate_risk` (`src/strategies/risk_manager.py:61-72`). -/
def calculate_risk (entry_price stop_loss : ℚ) : ℚ := |entry_price - stop_loss|

/-- `RiskManager.calculate_target_by_rr` (`src/strategies/risk_manager.py:74-99`). -/
def calculate_target_by_rr (entry_price stop_loss : ℚ) (side : Side) (rr_level : ℚ) : ℚ :=
  let reward := calculate_risk entry_price stop_loss * rr_level
  match side with
  | Side.buy => entry_price + reward
  | Side.sell => entry_price - reward

/-- `RiskManager.calculate_rr_ratio` (`src/strategies/risk_manager.py:101-122`). -/
def calculate_rr_ratio (entry_price stop_loss target_price : ℚ) : ℚ :=
  let risk := |entry_price - stop_loss|
  let reward := |target_price - entry_price|
  if risk = 0 then 0 else reward / risk

/-- `RiskManager.calculate_target_by_zone` (`src/strategies/risk_manager.py:124-146`);
`entry_price` is unused in the source body as well. -/
def calculate_target_by_zone (entry_price : ℚ) (side : Side) (vrz_zone : Zone) : ℚ :=
  match side with
  | Side.buy => vrz_zone.zone_lower
  | Side.sell => vrz_zone.zone_upper

/-- One target dict from `RiskManager.calculate_multiple_targets`
(`src/strategies/risk_manager.py:148-213`); the string `type` tag and the
`zone_price` field are dropped. -/
structure TargetInfo where
  level : ℕ
  price : ℚ
  rr_level : ℚ
  exit_percentage : ℚ
deriving DecidableEq, Repr

instance : Inhabited TargetInfo := ⟨⟨0, 0, 0, 0⟩⟩

/-- `RiskManager.calculate_multiple_targets` (`src/strategies/risk_manager.py:148-213`).
Python's optional `target_levels=None` / `vrz_zones=None` arguments are
empty lists, matching the truthiness tests in the source. -/
def calculate_multiple_targets (entry_price stop_loss : ℚ) (side : Side)
    (target_type : String) (target_levels : List ℚ) (vrz_zones : List Zone) :
    List TargetInfo :=
  if target_type = "rr" ∧ target_levels ≠ [] then
    let exit_percentages := PARTIAL_EXIT_PERCENTAGES target_levels.length
    target_levels.enum.map fun ir =>
      { level := ir.1 + 1,
        price := calculate_target_by_rr entry_price stop_loss side ir.2,
        rr_level := ir.2,
        exit_percentage := exit_percentages.getD ir.1 100 }
  else if target_type = "zone" ∧ vrz_zones ≠ [] then
    let exit_percentages := PARTIAL_EXIT_PERCENTAGES vrz_zones.length
    vrz_zones.enum.map fun iz =>
      let target_price := calculate_target_by_zone entry_price side iz.2
      { level := iz.1 + 1,
        price := target_price,
        rr_level := calculate_rr_ratio entry_price stop_loss target_price,
        exit_percentage := exit_percentages.getD iz.1 100 }
  else []

/-- `RiskManager.validate_trade_setup` (`src/strategies/risk_manager.py:215-255`);
the human-readable reason string of the middle tuple component is dropped. -/
def validate_trade_setup (min_risk_reward : ℚ) (entry_price stop_loss target_price : ℚ)
    (side : Side) : Bool × ℚ :=
  let rr := calculate_rr_ratio entry_price stop_loss target_price
  if rr < min_risk_reward then (false, rr)
  else
    match side with
    | Side.buy =>
      if entry_price ≤ stop_loss then (false, rr)
      else if target_price ≤ entry_price then (false, rr)
      else (true, rr)
    | Side.sell =>
      if stop_loss ≤ entry_price then (false, rr)
      else if entry_price ≤ target_price then (false, rr)
      else (true, rr)

/-- `RiskManager.calculate_position_size` (`src/strategies/risk_manager.py:257-294`).
The Python body divides by `risk_per_unit * contract_size` with no zero
guard; a zero divisor raises `ZeroDivisionError`, modelled as `none`. -/
def calculate_position_size (account_balance risk_percentage entry_price stop_loss
    contract_size : ℚ) : Option ℤ :=
  let risk_per_unit := |entry_price - stop_loss|
  let max_risk_amount := account_balance * (risk_percentage / 100)
  if risk_per_unit * contract_size = 0 then none
  else some (max 1 (ratTrunc (max_risk_amount / (risk_per_unit * contract_size))))

end RiskManager

namespace VRZRepository

/-- Breach test inside `VRZRepository.check_and_invalidate`
(`src/database/repositories/vrz_repository.py:65-72`). -/
def zoneBreached (zone : Zone) (current_candle : Candle) : Bool :=
  match zone.type with
  | ZoneType.resistance => decide (zone.zone_upper < current_candle.high)
  | ZoneType.support => decide (current_candle.low < zone.zone_lower)

/-- `VRZRepository.invalidate_zone` (`src/database/repositories/vrz_repository.py:52-58`)
applied to one zone document. -/
def invalidate_zone (zone : Zone) (breach_details : BreachDetails) : Zone :=
  { zone with status := ZoneStatus.invalidated, breach_details := some breach_details }

/-- Per-document body of `VRZRepository.check_and_invalidate`
(`src/database/repositories/vrz_repository.py:60-80`): the source queries
`{'symbol': symbol, 'status': 'active'}` — so a document outside that
filter is untouched — and invalidates a queried zone exactly when its
breach test fires. -/
def checkZone (symbol : String) (current_candle : Candle) (zone : Zone) : Zone :=
  if zone.symbol = symbol ∧ zone.status = ZoneStatus.active then
    if zoneBreached zone current_candle then
      invalidate_zone zone
        { breach_price := current_candle.close, breach_timeframe := zone.timeframe }
    else zone
  else zone

/-- `VRZRepository.check_and_invalidate`
(`src/database/repositories/vrz_repository.py:60-80`), with the
`vrz_zones` collection modelled as a list of documents updated in place
by id. -/
def check_and_invalidate (symbol : String) (current_candle : Candle)
    (zones : List Zone) : List Zone :=
  zones.map (checkZone symbol current_candle)

/-- A sequence of candles applied through `check_and_invalidate`. -/
def apply_candles (symbol : String) (candles : List Candle) (zones : List Zone) :
    List Zone :=
  candles.foldl (fun zs c => check_and_invalidate symbol c zs) zones

/-- Query filter of `VRZRepository.get_nearest_zones`
(`src/database/repositories/vrz_repository.py:43`). -/
def zoneMatches (symbol timeframe : String) (zone_type : ZoneType) (zone : Zone) : Bool :=
  decide (zone.symbol = symbol ∧ zone.timeframe = timeframe ∧
    zone.status = ZoneStatus.active ∧ zone.type = zone_type)

/-- `VRZRepository.get_nearest_zones`
(`src/database/repositories/vrz_repository.py:39-50`): find matching active
zones (the cursor is capped at 100 documents by `to_list(length=100)`),
sort stably by `abs(price_level - current_price)` ascending, truncate to
`limit`. -/
def get_nearest_zones (zones : List Zone) (symbol timeframe : String)
    (current_price : ℚ) (zone_type : ZoneType) (limit : ℕ) : List Zone :=
  let matched := (zones.filter (zoneMatches symbol timeframe zone_type)).take 100
  let sorted_zones := matched.mergeSort fun a b =>
    decide (|a.price_level - current_price| ≤ |b.price_level - current_price|)
  sorted_zones.take limit

end VRZRepository

namespace VRZCalculator

/-- `VRZCalculator.get_active_zones` (`src/strategies/vrz_calculator.py:299-350`):
fetch the `max_zones` nearest zones of each type, then keep resistance
zones with `zone_lower > current_price` and support zones with
`zone_upper < current_price`, truncated to `max_zones` again. -/
def get_active_zones (zones : List Zone) (symbol base_timeframe : String)
    (current_price : ℚ) (max_zones : ℕ) : List Zone × List Zone :=
  let resistance_zones := VRZRepository.get_nearest_zones zones symbol base_timeframe
    current_price ZoneType.resistance max_zones
  let resistance_zones :=
    (resistance_zones.filter fun z => decide (current_price < z.zone_lower)).take max_zones
  let support_zones := VRZRepository.get_nearest_zones zones symbol base_timeframe
    current_price ZoneType.support max_zones
  let support_zones :=
    (support_zones.filter fun z => decide (z.zone_upper < current_price)).take max_zones
  (resistance_zones, support_zones)

/-- `VRZCalculator.is_price_near_zone` (`src/strategies/vrz_calculator.py:352-372`). -/
def is_price_near_zone (price : ℚ) (zone : Zone) (proximity_percent : ℚ) : Bool :=
  let proximity_buffer := zone.price_level * (proximity_percent / 100)
  let extended_lower := zone.zone_lower - proximity_buffer
  let extended_upper := zone.zone_upper + proximity_buffer
  decide (extended_lower ≤ price ∧ price ≤ extended_upper)

end VRZCalculator

namespace ExitEngine

/-- One entry of a trade's `targets` list as consumed by
`ExitEngine.manage_exits` (`src/trading/exit_engine.py`); only the fields
the engine reads are kept. -/
structure Target where
  level : ℕ
  price : ℚ
  exit_percentage : ℚ
deriving DecidableEq, Repr

/-- One entry of a trade's `exit_details` list; `manage_exits` only reads
`target_level` and the list length. -/
structure ExitDetail where
  target_level : ℕ
deriving DecidableEq, Repr

/-- The trade document fields read by `ExitEngine`
(`src/trading/exit_engine.py`). -/
structure Trade where
  side : Side
  entry_price : ℚ
  stop_loss : ℚ
  remaining_size : ℤ
  targets : List Target
  exit_details : List ExitDetail
deriving DecidableEq, Repr

/-- An exit action dict appended to the `actions` list of
`ExitEngine.manage_exits`; order ids and timestamps are dropped. -/
inductive ExitAction where
  | partialExit (target_level : ℕ) (exit_price : ℚ) (exit_quantity : ℤ)
      (remaining_quantity : ℤ) (pnl : ℚ)
  | stopLossExit (exit_price : ℚ) (exit_quantity : ℤ) (remaining_quantity : ℤ) (pnl : ℚ)
  | trailStop (new_stop_loss : ℚ)
deriving DecidableEq, Repr

/-- Recognizer for `trail_stop` actions. -/
def isTrailStopAction : ExitAction → Bool
  | ExitAction.trailStop _ => true
  | _ => false

/-- `ExitEngine._is_target_hit` (`src/trading/exit_engine.py:72-81`). -/
def is_target_hit (current_price target_price : ℚ) (side : Side) : Bool :=
  match side with
  | Side.buy => decide (target_price ≤ current_price)
  | Side.sell => decide (current_price ≤ target_price)

/-- `ExitEngine._is_stop_loss_hit` (`src/trading/exit_engine.py:83-88`). -/
def is_stop_loss_hit (current_price stop_loss : ℚ) (side : Side) : Bool :=
  match side with
  | Side.buy => decide (current_price ≤ stop_loss)
  | Side.sell => decide (stop_loss ≤ current_price)

/-- `ExitEngine._execute_partial_exit` (`src/trading/exit_engine.py:90-136`).
The external market order through `delta_client.place_order` is abstracted
by the flag `order_ok`: the source returns an action dict only when the
order response reports success, and `None` otherwise.  Note that the
quantity is computed from `trade['remaining_size']` as passed in — the
trade dict is not mutated anywhere in the engine. -/
def execute_partial_exit (order_ok : Bool) (trade : Trade) (target : Target)
    (current_price : ℚ) : Option ExitAction :=
  let exit_quantity : ℤ :=
    max 1 (ratTrunc ((trade.remaining_size : ℚ) * (target.exit_percentage / 100)))
  if order_ok then
    let pnl :=
      match trade.side with
      | Side.buy => (current_price - trade.entry_price) * (exit_quantity : ℚ)
      | Side.sell => (trade.entry_price - current_price) * (exit_quantity : ℚ)
    some (ExitAction.partialExit target.level current_price exit_quantity
      (trade.remaining_size - exit_quantity) pnl)
  else none

/-- `ExitEngine._execute_stop_loss_exit` (`src/trading/exit_engine.py:138-180`),
with the external order abstracted as in `execute_partial_exit`. -/
def execute_stop_loss_exit (order_ok : Bool) (trade : Trade) (current_price : ℚ) :
    Option ExitAction :=
  if order_ok then
    let pnl :=
      match trade.side with
      | Side.buy => (current_price - trade.entry_price) * (trade.remaining_size : ℚ)
      | Side.sell => (trade.entry_price - current_price) * (trade.remaining_size : ℚ)
    some (ExitAction.stopLossExit current_price trade.remaining_size 0 pnl)
  else none

/-- `ExitEngine._should_trail_stop` (`src/trading/exit_engine.py:182-186`). -/
def should_trail_stop (trade : Trade) : Bool :=
  decide (0 < trade.exit_details.length) && decide (0 < trade.remaining_size)

/-- `ExitEngine._calculate_trailing_stop` (`src/trading/exit_engine.py:188-214`). -/
def calculate_trailing_stop (trade : Trade) (current_price : ℚ) : Option ℚ :=
  match trade.side with
  | Side.buy =>
    if trade.entry_price < current_price ∧ trade.stop_loss < trade.entry_price then
      some trade.entry_price
    else none
  | Side.sell =>
    if current_price < trade.entry_price ∧ trade.entry_price < trade.stop_loss then
      some trade.entry_price
    else none

/-- Target loop of `ExitEngine.manage_exits` (`src/trading/exit_engine.py:37-45`):
one partial exit per target whose level is absent from `exit_details` and
whose price is reached.  The loop reads `trade['remaining_size']`
unchanged for every target: nothing updates the trade dict between
iterations. -/
def partial_exit_actions (order_ok : Bool) (trade : Trade) (current_price : ℚ) :
    List ExitAction :=
  trade.targets.filterMap fun target =>
    if target.level ∉ trade.exit_details.map ExitDetail.target_level ∧
        is_target_hit current_price target.price trade.side then
      execute_partial_exit order_ok trade target current_price
    else none

/-- Stop-loss phase of `ExitEngine.manage_exits` (`src/trading/exit_engine.py:47-51`). -/
def stop_loss_actions (order_ok : Bool) (trade : Trade) (current_price : ℚ) :
    List ExitAction :=
  if is_stop_loss_hit current_price trade.stop_loss trade.side then
    (execute_stop_loss_exit order_ok trade current_price).toList
  else []

/-- Trailing phase of `ExitEngine.manage_exits` (`src/trading/exit_engine.py:53-60`). -/
def trail_stop_actions (trade : Trade) (current_price : ℚ) : List ExitAction :=
  if should_trail_stop trade then
    ((calculate_trailing_stop trade current_price).map ExitAction.trailStop).toList
  else []

/-- `ExitEngine.manage_exits` (`src/trading/exit_engine.py:21-70`): the
`actions` list collects the partial exits, then a stop-loss exit if the
stop is hit, then a trail-stop action if applicable. -/
def manage_exits (order_ok : Bool) (trade : Trade) (current_price : ℚ) :
    List ExitAction :=
  partial_exit_actions order_ok trade current_price ++
    stop_loss_actions order_ok trade current_price ++
    trail_stop_actions trade current_price

end ExitEngine

namespace PositionManager

/-- The fields of a locally stored open position read by
`PositionManager.sync_with_exchange` (`src/trading/position_manager.py:235-291`). -/
structure LocalPosition where
  position_id : String
  product_id : ℕ
  symbol : String
  remaining_size : ℤ
deriving DecidableEq, Repr

/-- One entry of the exchange position report; the source reads
`abs(int(ex_pos.get('size', 0)))`. -/
structure ExchangePosition where
  product_id : ℕ
  size : ℤ
deriving DecidableEq, Repr

/-- A discrepancy dict produced by `sync_with_exchange`. -/
inductive Discrepancy where
  | size_mismatch (position_id symbol : String) (local_size exchange_size : ℤ)
  | missing_on_exchange (position_id symbol : String)
deriving DecidableEq, Repr

/-- Per-local-position body of the `sync_with_exchange` loop: scan the
exchange list for the first entry with the same `product_id` (the source
`break`s at the first match), compare sizes, otherwise report the position
as missing. -/
def reconcile_one (exchange_positions : List ExchangePosition)
    (local_pos : LocalPosition) : Option Discrepancy :=
  match exchange_positions.find? fun ep => decide (ep.product_id = local_pos.product_id) with
  | some ep =>
    if local_pos.remaining_size ≠ |ep.size| then
      some (Discrepancy.size_mismatch local_pos.position_id local_pos.symbol
        local_pos.remaining_size |ep.size|)
    else none
  | none => some (Discrepancy.missing_on_exchange local_pos.position_id local_pos.symbol)

/-- `PositionManager.sync_with_exchange` (`src/trading/position_manager.py:235-291`).
The source only reads both position lists and appends to a local
`discrepancies` list; it never writes local or exchange position state,
which the purely functional type records. -/
def sync_with_exchange (local_positions : List LocalPosition)
    (exchange_positions : List ExchangePosition) : List Discrepancy :=
  local_positions.filterMap (reconcile_one exchange_positions)

end PositionManager

namespace EntryEngine

/-- The `user_settings` keys read by `EntryEngine` and its signal builders
(`src/trading/entry_engine.py`), with the defaults the source supplies to
`.get`. -/
structure UserSettings where
  stop_loss_pips : ℕ
  target_type : String
  target_levels : List ℚ
  max_vrz_zones : ℕ
deriving DecidableEq, Repr

/-- The entry-signal dict assembled by `_create_long_signal` /
`_create_short_signal` (`src/trading/entry_engine.py:230-246, 342-358`);
symbol, ids, timestamps, order and lot settings are dropped. -/
structure Signal where
  side : Side
  entry_price : ℚ
  stop_loss : ℚ
  targets : List RiskManager.TargetInfo
  risk_reward : ℚ
  pattern_name : String
  pattern_confidence : ℚ
deriving DecidableEq, Repr

/-- `EntryEngine._find_nearby_zone` (`src/trading/entry_engine.py:136-150`):
first zone of the list near the price at 0.5% proximity. -/
def find_nearby_zone (price : ℚ) (zones : List Zone) : Option Zone :=
  zones.find? fun zone => VRZCalculator.is_price_near_zone price zone (1/2)

/-- Python `max(patterns, key=lambda p: p['confidence'])`: the first
pattern of maximal confidence (`src/trading/entry_engine.py:101`); the
source guards against an empty list. -/
def best_pattern : List PatternDetector.Pattern → PatternDetector.Pattern
  | [] => default
  | p :: ps => ps.foldl (fun acc q => if acc.confidence < q.confidence then q else acc) p

/-- `EntryEngine._create_long_signal` (`src/trading/entry_engine.py:152-262`).
`min_risk_reward` is the module-level `risk_manager`'s minimum.  The call
to `calculate_entry_timeframe_vrz` is omitted: its result is never used in
the signal. -/
def create_long_signal (min_risk_reward : ℚ) (us : UserSettings) (current_price : ℚ)
    (pattern : PatternDetector.Pattern) (support_zones resistance_zones : List Zone) :
    Option Signal :=
  let stop_loss := RiskManager.calculate_stop_loss current_price Side.buy
    pattern.pattern_high pattern.pattern_low us.stop_loss_pips
  let targets :=
    if us.target_type = "zone" then
      RiskManager.calculate_multiple_targets current_price stop_loss Side.buy "zone"
        [] (resistance_zones.take us.max_vrz_zones)
    else
      RiskManager.calculate_multiple_targets current_price stop_loss Side.buy "rr"
        us.target_levels []
  if targets = [] then none
  else
    let first_target := (targets.headD default).price
    let v := RiskManager.validate_trade_setup min_risk_reward current_price stop_loss
      first_target Side.buy
    if v.1 then
      some { side := Side.buy, entry_price := current_price, stop_loss := stop_loss,
             targets := targets, risk_reward := v.2,
             pattern_name := pattern.pattern_name,
             pattern_confidence := pattern.confidence }
    else none

/-- `EntryEngine._create_short_signal` (`src/trading/entry_engine.py:264-374`). -/
def create_short_signal (min_risk_reward : ℚ) (us : UserSettings) (current_price : ℚ)
    (pattern : PatternDetector.Pattern) (resistance_zones support_zones : List Zone) :
    Option Signal :=
  let stop_loss := RiskManager.calculate_stop_loss current_price Side.sell
    pattern.pattern_high pattern.pattern_low us.stop_loss_pips
  let targets :=
    if us.target_type = "zone" then
      RiskManager.calculate_multiple_targets current_price stop_loss Side.sell "zone"
        [] (support_zones.take us.max_vrz_zones)
    else
      RiskManager.calculate_multiple_targets current_price stop_loss Side.sell "rr"
        us.target_levels []
  if targets = [] then none
  else
    let first_target := (targets.headD default).price
    let v := RiskManager.validate_trade_setup min_risk_reward current_price stop_loss
      first_target Side.sell
    if v.1 then
      some { side := Side.sell, entry_price := current_price, stop_loss := stop_loss,
             targets := targets, risk_reward := v.2,
             pattern_name := pattern.pattern_name,
             pattern_confidence := pattern.confidence }
    else none

/-- `EntryEngine.scan_for_entry_signals` (`src/trading/entry_engine.py:42-134`).
External collaborators are parameters: `candles` is the fetched
trading-timeframe history, `resistance_zones`/`support_zones` are the two
lists returned by `VRZCalculator.get_active_zones`, and `scan_all` is
`PatternDetector.scan_all_patterns`.  The source wraps the body in a
blanket `except` returning `None`; the Lean function is total, so no
failure can escape to the caller. -/
def scan_for_entry_signals (scan_all : List Candle → ℕ → List PatternDetector.Pattern)
    (min_risk_reward : ℚ) (us : UserSettings) (candles : List Candle)
    (resistance_zones support_zones : List Zone) : Option Signal :=
  if candles.length < 10 then none
  else
    let current_price := (candles.getD (candles.length - 1) default).close
    let near_resistance := find_nearby_zone current_price resistance_zones
    let near_support := find_nearby_zone current_price support_zones
    if near_resistance = none ∧ near_support = none then none
    else
      let patterns := scan_all candles (candles.length - 1)
      if patterns = [] then none
      else
        let best := best_pattern patterns
        match best.direction with
        | PatternDetector.Direction.bullish =>
          match near_support with
          | some zone =>
            create_long_signal min_risk_reward us current_price best
              support_zones resistance_zones
          | none => none
        | PatternDetector.Direction.bearish =>
          match near_resistance with
          | some zone =>
            create_short_signal min_risk_reward us current_price best
              resistance_zones support_zones
          | none => none

end EntryEngine

/-!
## Theorems

General lemmas about the embedded functions, followed by one theorem per
claim (with a closed witness where the claim's theorem carries
hypotheses).
-/

lemma ratTrunc_of_nonneg {q : ℚ} (h : 0 ≤ q) : ratTrunc q = ⌊q⌋ := if_pos h

/-- Under a lower clamp at 1, Python truncation toward zero agrees with the
floor: they differ only at negative non-integers, where both sides clamp to 1. -/
lemma max_one_ratTrunc (q : ℚ) : max 1 (ratTrunc q) = max 1 ⌊q⌋ := by
  unfold ratTrunc
  split
  · rfl
  · rename_i h
    push_neg at h
    have h1 : ⌊q⌋ ≤ 0 := Int.floor_nonpos h.le
    have h2 : (0 : ℤ) ≤ ⌊-q⌋ := Int.floor_nonneg.mpr (by linarith)
    omega

namespace RiskManager

lemma PARTIAL_EXIT_PERCENTAGES_ne_nil (n : ℕ) : PARTIAL_EXIT_PERCENTAGES n ≠ [] := by
  unfold PARTIAL_EXIT_PERCENTAGES
  split <;> simp

/-- The partial-exit loop always produces a final entry holding the running
remainder: the output is some prefix followed by `remaining −` the prefix sum. -/
lemma partialExitsGo_eq_append (size : ℤ) (ps : List ℚ) (rem : ℤ) (h : ps ≠ []) :
    ∃ l, partialExitsGo size ps rem = l ++ [rem - l.sum] := by
  induction ps generalizing rem with
  | nil => exact absurd rfl h
  | cons p ps ih =>
    cases ps with
    | nil => exact ⟨[], by simp [partialExitsGo]⟩
    | cons q rest =>
      obtain ⟨l, hl⟩ := ih (rem - max 1 (ratTrunc ((size : ℚ) * (p / 100)))) (by simp)
      refine ⟨max 1 (ratTrunc ((size : ℚ) * (p / 100))) :: l, ?_⟩
      rw [partialExitsGo, hl]
      simp [List.sum_cons]
      ring_nf

end RiskManager

/-- C1: for every `position_size ≥ 0` and target count `≥ 1`,
`RiskManager.calculate_partial_exits` returns a list summing exactly to
`position_size`, whose final entry is `position_size` minus the sum of all
earlier entries; in particular `calculate_partial_exits 100 3` has three
entries summing to exactly 100. -/
theorem claim_C1_partial_exits_sum (position_size : ℤ) (num_targets : ℕ)
    (hsize : 0 ≤ position_size) (htargets : 1 ≤ num_targets) :
    (RiskManager.calculate_partial_exits position_size num_targets).sum = position_size ∧
    (RiskManager.calculate_partial_exits position_size num_targets).getLast? =
      some (position_size -
        (RiskManager.calculate_partial_exits position_size num_targets).dropLast.sum) ∧
    (RiskManager.calculate_partial_exits 100 3).length = 3 ∧
    (RiskManager.calculate_partial_exits 100 3).sum = 100 := by
  obtain ⟨l, hl⟩ := RiskManager.partialExitsGo_eq_append position_size
    (RiskManager.PARTIAL_EXIT_PERCENTAGES num_targets) position_size
    (RiskManager.PARTIAL_EXIT_PERCENTAGES_ne_nil num_targets)
  refine ⟨?_, ?_, ?_, ?_⟩
  · rw [RiskManager.calculate_partial_exits, hl]
    simp
  · rw [RiskManager.calculate_partial_exits, hl]
    rw [List.getLast?_concat, List.dropLast_concat]
  · norm_num [RiskManager.calculate_partial_exits, RiskManager.partialExitsGo,
      RiskManager.PARTIAL_EXIT_PERCENTAGES, ratTrunc]
  · norm_num [RiskManager.calculate_partial_exits, RiskManager.partialExitsGo,
      RiskManager.PARTIAL_EXIT_PERCENTAGES, ratTrunc]

/-- Closed witness for C1 at `position_size = 100`, `num_targets = 3`. -/
theorem claim_C1_partial_exits_sum_witness :
    (RiskManager.calculate_partial_exits 100 3).sum = 100 :=
  (claim_C1_partial_exits_sum 100 3 (by norm_num) (by norm_num)).1

/-- C10: `RiskManager.calculate_position_size` divides by
`|entry_price − stop_loss| * contract_size` with no zero guard: with
`entry_price = stop_loss` or `contract_size = 0` it raises
(`none` in this embedding), while for `entry_price ≠ stop_loss`,
`contract_size > 0` and `account_balance ≥ 0` it returns
`max 1 ⌊account_balance * risk_percentage/100 / (|entry − stop| * contract_size)⌋`;
`calculate_rr_ratio`, by contrast, returns 0 on zero risk. -/
theorem claim_C10_position_size_division :
    (∀ balance risk_pct entry contract : ℚ,
      RiskManager.calculate_position_size balance risk_pct entry entry contract = none) ∧
    (∀ balance risk_pct entry stop : ℚ,
      RiskManager.calculate_position_size balance risk_pct entry stop 0 = none) ∧
    (∀ balance risk_pct entry stop contract : ℚ, entry ≠ stop → 0 < contract →
      0 ≤ balance →
      RiskManager.calculate_position_size balance risk_pct entry stop contract =
        some (max 1 ⌊balance * (risk_pct / 100) / (|entry - stop| * contract)⌋)) ∧
    (∀ entry target : ℚ, RiskManager.calculate_rr_ratio entry entry target = 0) := by
  refine ⟨?_, ?_, ?_, ?_⟩
  · intro balance risk_pct entry contract
    simp [RiskManager.calculate_position_size]
  · intro balance risk_pct entry stop
    simp [RiskManager.calculate_position_size]
  · intro balance risk_pct entry stop contract hes hc _hb
    have habs : (0 : ℚ) < |entry - stop| := abs_pos.mpr (sub_ne_zero.mpr hes)
    have hne : |entry - stop| * contract ≠ 0 := by positivity
    rw [RiskManager.calculate_position_size, if_neg hne, max_one_ratTrunc]
  · intro entry target
    simp [RiskManager.calculate_rr_ratio]

/-- Closed witness for C10 at entry 100, stop 90, contract size 1,
balance 1000, risk 1%. -/
theorem claim_C10_position_size_division_witness :
    RiskManager.calculate_position_size 1000 1 100 90 1 =
      some (max 1 ⌊(1000 : ℚ) * (1 / 100) / (|(100 : ℚ) - 90| * 1)⌋) :=
  claim_C10_position_size_division.2.2.1 1000 1 100 90 1 (by norm_num) (by norm_num)
    (by norm_num)

namespace SwingDetector

/-- The two `all`-scans over the swing windows, within bounds, say exactly
that `P` holds at every position strictly inside the `left`-bar window
before `index` and the `right`-bar window after it. -/
lemma swing_window_iff (left right index len : ℕ) (P : ℕ → Prop) [DecidablePred P]
    (hb : ¬(index < left ∨ len ≤ index + right)) :
    ((((List.range left).all fun k => decide (P (index - left + k))) &&
      ((List.range right).all fun k => decide (P (index + 1 + k)))) = true ↔
      ∀ i, (index - left ≤ i ∧ i < index) ∨ (index < i ∧ i ≤ index + right) → P i) := by
  push_neg at hb
  obtain ⟨hli, -⟩ := hb
  rw [Bool.and_eq_true]
  simp only [List.all_eq_true, List.mem_range, decide_eq_true_eq]
  constructor
  · rintro ⟨hl, hr⟩ i hi
    rcases hi with ⟨h1, h2⟩ | ⟨h1, h2⟩
    · have hk : i - (index - left) < left := by omega
      have heq : index - left + (i - (index - left)) = i := by omega
      have := hl _ hk
      rwa [heq] at this
    · have hk : i - (index + 1) < right := by omega
      have heq : index + 1 + (i - (index + 1)) = i := by omega
      have := hr _ hk
      rwa [heq] at this
  · intro h
    refine ⟨fun k hk => h _ (Or.inl ⟨by omega, by omega⟩),
            fun k hk => h _ (Or.inr ⟨by omega, by omega⟩)⟩

/-- Full characterization of `is_valid_swing_high`. -/
lemma is_valid_swing_high_iff (left_bars right_bars : ℕ) (candles : List Candle)
    (index : ℕ) :
    (is_valid_swing_high left_bars right_bars candles index).1 = true ↔
      (left_bars ≤ index ∧ index + right_bars < candles.length ∧
        ∀ i, (index - left_bars ≤ i ∧ i < index) ∨
            (index < i ∧ i ≤ index + right_bars) →
          (candles.getD i default).high < (candles.getD index default).high) := by
  rw [is_valid_swing_high]
  split_ifs with h1 h2
  · simp only [Bool.false_eq_true, false_iff]
    rintro ⟨ha, hb, -⟩
    omega
  · simp only [true_iff]
    have := (swing_window_iff left_bars right_bars index candles.length
      (fun i => (candles.getD i default).high < (candles.getD index default).high)
      h1).mp h2
    exact ⟨by omega, by omega, this⟩
  · simp only [Bool.false_eq_true, false_iff]
    rintro ⟨-, -, hall⟩
    exact h2 ((swing_window_iff left_bars right_bars index candles.length
      (fun i => (candles.getD i default).high < (candles.getD index default).high)
      h1).mpr hall)

/-- Full characterization of `is_valid_swing_low`. -/
lemma is_valid_swing_low_iff (left_bars right_bars : ℕ) (candles : List Candle)
    (index : ℕ) :
    (is_valid_swing_low left_bars right_bars candles index).1 = true ↔
      (left_bars ≤ index ∧ index + right_bars < candles.length ∧
        ∀ i, (index - left_bars ≤ i ∧ i < index) ∨
            (index < i ∧ i ≤ index + right_bars) →
          (candles.getD index default).low < (candles.getD i default).low) := by
  rw [is_valid_swing_low]
  split_ifs with h1 h2
  · simp only [Bool.false_eq_true, false_iff]
    rintro ⟨ha, hb, -⟩
    omega
  · simp only [true_iff]
    have := (swing_window_iff left_bars right_bars index candles.length
      (fun i => (candles.getD index default).low < (candles.getD i default).low)
      h1).mp h2
    exact ⟨by omega, by omega, this⟩
  · simp only [Bool.false_eq_true, false_iff]
    rintro ⟨-, -, hall⟩
    exact h2 ((swing_window_iff left_bars right_bars index candles.length
      (fun i => (candles.getD index default).low < (candles.getD i default).low)
      h1).mpr hall)

/-- On success the returned price level is the candidate's high. -/
lemma is_valid_swing_high_price (left_bars right_bars : ℕ) (candles : List Candle)
    (index : ℕ) (h : (is_valid_swing_high left_bars right_bars candles index).1 = true) :
    (is_valid_swing_high left_bars right_bars candles index).2.1 =
      (candles.getD index default).high := by
  rw [is_valid_swing_high] at h ⊢
  split_ifs at h ⊢ with h1 h2 <;> simp_all

/-- On success the returned price level is the candidate's low. -/
lemma is_valid_swing_low_price (left_bars right_bars : ℕ) (candles : List Candle)
    (index : ℕ) (h : (is_valid_swing_low left_bars right_bars candles index).1 = true) :
    (is_valid_swing_low left_bars right_bars candles index).2.1 =
      (candles.getD index default).low := by
  rw [is_valid_swing_low] at h ⊢
  split_ifs at h ⊢ with h1 h2 <;> simp_all

end SwingDetector

/-- C6: `is_valid_swing_high` accepts exactly the indices with
`leftBars ≤ index < len − rightBars` whose `leftBars` predecessors and
`rightBars` successors all have strictly smaller highs (so any
equal-or-greater neighboring high invalidates the pivot), returning the
candidate's high as the price level; symmetrically `is_valid_swing_low`
with lows; consequently indices within `leftBars` of the start or
`rightBars` of the end are never pivots. -/
theorem claim_C6_swing_detection (left_bars right_bars : ℕ) (candles : List Candle)
    (index : ℕ) :
    ((SwingDetector.is_valid_swing_high left_bars right_bars candles index).1 = true ↔
      (left_bars ≤ index ∧ index + right_bars < candles.length ∧
        ∀ i, (index - left_bars ≤ i ∧ i < index) ∨
            (index < i ∧ i ≤ index + right_bars) →
          (candles.getD i default).high < (candles.getD index default).high)) ∧
    ((SwingDetector.is_valid_swing_high left_bars right_bars candles index).1 = true →
      (SwingDetector.is_valid_swing_high left_bars right_bars candles index).2.1 =
        (candles.getD index default).high) ∧
    ((SwingDetector.is_valid_swing_low left_bars right_bars candles index).1 = true ↔
      (left_bars ≤ index ∧ index + right_bars < candles.length ∧
        ∀ i, (index - left_bars ≤ i ∧ i < index) ∨
            (index < i ∧ i ≤ index + right_bars) →
          (candles.getD index default).low < (candles.getD i default).low)) ∧
    ((SwingDetector.is_valid_swing_low left_bars right_bars candles index).1 = true →
      (SwingDetector.is_valid_swing_low left_bars right_bars candles index).2.1 =
        (candles.getD index default).low) ∧
    (index < left_bars ∨ candles.length ≤ index + right_bars →
      (SwingDetector.is_valid_swing_high left_bars right_bars candles index).1 = false ∧
      (SwingDetector.is_valid_swing_low left_bars right_bars candles index).1 = false) := by
  refine ⟨SwingDetector.is_valid_swing_high_iff left_bars right_bars candles index,
    SwingDetector.is_valid_swing_high_price left_bars right_bars candles index,
    SwingDetector.is_valid_swing_low_iff left_bars right_bars candles index,
    SwingDetector.is_valid_swing_low_price left_bars right_bars candles index, ?_⟩
  intro hout
  constructor
  · rw [SwingDetector.is_valid_swing_high, if_pos hout]
  · rw [SwingDetector.is_valid_swing_low, if_pos hout]

/-- Closed witness for C6: with one bar of context on each side, the middle
candle of `[high 1, high 5, high 2]` is a valid swing high at price 5. -/
theorem claim_C6_swing_detection_witness :
    (SwingDetector.is_valid_swing_high 1 1
      [⟨0, 0, 1, 0, 0, 0⟩, ⟨1, 0, 5, 0, 0, 0⟩, ⟨2, 0, 2, 0, 0, 0⟩] 1).2.1 = 5 := by
  have h : (SwingDetector.is_valid_swing_high 1 1
      [⟨0, 0, 1, 0, 0, 0⟩, ⟨1, 0, 5, 0, 0, 0⟩, ⟨2, 0, 2, 0, 0, 0⟩] 1).1 = true := by
    norm_num [SwingDetector.is_valid_swing_high, List.range_succ]
  have := (claim_C6_swing_detection 1 1
    [⟨0, 0, 1, 0, 0, 0⟩, ⟨1, 0, 5, 0, 0, 0⟩, ⟨2, 0, 2, 0, 0, 0⟩] 1).2.1 h
  simpa using this

/-- C7 counterexample: a candle with body exactly 30% of its range
(low 0, open 13/2, close 19/2, high 10: body 3, range 10, lower shadow
13/2 ≥ 2·body, upper shadow 1/2 < 0.3·body) meets every condition of the
claim — body at most 30% of range included — yet `detect_hammer` returns
no match, because the source compares `body/range < 0.3` strictly. -/
theorem claim_C7_hammer_counterexample :
    PatternDetector.detect_hammer [⟨0, 13/2, 10, 0, 19/2, 0⟩] 0 = none ∧
    (0 : ℚ) < (10 : ℚ) ∧
    PatternDetector.body_size ⟨0, 13/2, 10, 0, 19/2, 0⟩ ≤
      (3/10) * ((10 : ℚ) - 0) ∧
    PatternDetector.body_size ⟨0, 13/2, 10, 0, 19/2, 0⟩ * 2 ≤
      PatternDetector.lower_shadow ⟨0, 13/2, 10, 0, 19/2, 0⟩ ∧
    PatternDetector.upper_shadow ⟨0, 13/2, 10, 0, 19/2, 0⟩ <
      PatternDetector.body_size ⟨0, 13/2, 10, 0, 19/2, 0⟩ * (3/10) := by
  refine ⟨?_, by norm_num, ?_, ?_, ?_⟩ <;>
    norm_num [PatternDetector.detect_hammer, PatternDetector.body_size,
      PatternDetector.lower_shadow, PatternDetector.upper_shadow]

/-- C7 amended: for a candle with `high > low`, `detect_hammer` returns the
bullish 0.70 match exactly when the body is **strictly less than** 30% of
the high-low range, the lower shadow is at least twice the body, and the
upper shadow is less than 30% of the body; otherwise it returns none. -/
theorem claim_C7_hammer_amended (c : Candle) (h : c.low < c.high) :
    (PatternDetector.detect_hammer [c] 0 =
        some ⟨"hammer", PatternDetector.Direction.bullish, 7/10, c.high, c.low⟩ ↔
      (PatternDetector.body_size c < (3/10) * (c.high - c.low) ∧
        PatternDetector.body_size c * 2 ≤ PatternDetector.lower_shadow c ∧
        PatternDetector.upper_shadow c < PatternDetector.body_size c * (3/10))) ∧
    (¬(PatternDetector.body_size c < (3/10) * (c.high - c.low) ∧
        PatternDetector.body_size c * 2 ≤ PatternDetector.lower_shadow c ∧
        PatternDetector.upper_shadow c < PatternDetector.body_size c * (3/10)) →
      PatternDetector.detect_hammer [c] 0 = none) := by
  have hr : (0 : ℚ) < c.high - c.low := by linarith
  have hdiv : PatternDetector.body_size c / (c.high - c.low) < 3/10 ↔
      PatternDetector.body_size c < (3/10) * (c.high - c.low) :=
    div_lt_iff₀ hr
  rw [PatternDetector.detect_hammer]
  simp only [List.getD_cons_zero]
  constructor
  · split_ifs with hcond
    · obtain ⟨h1, h2, h3⟩ := hcond
      exact iff_of_true rfl ⟨hdiv.mp h3, h1, h2⟩
    · refine iff_of_false (by simp) ?_
      rintro ⟨h1, h2, h3⟩
      exact hcond ⟨h2, h3, hdiv.mpr h1⟩
  · intro hnc
    rw [if_neg]
    rintro ⟨h1, h2, h3⟩
    exact hnc ⟨hdiv.mp h3, h1, h2⟩

/-- Closed witness for the amended C7: a genuine hammer (low 0, open 9,
close 10, high 10) is detected. -/
theorem claim_C7_hammer_amended_witness :
    PatternDetector.detect_hammer [⟨0, 9, 10, 0, 10, 0⟩] 0 =
      some ⟨"hammer", PatternDetector.Direction.bullish, 7/10, 10, 0⟩ :=
  (claim_C7_hammer_amended ⟨0, 9, 10, 0, 10, 0⟩ (by norm_num)).1.mpr
    (by norm_num [PatternDetector.body_size, PatternDetector.lower_shadow,
      PatternDetector.upper_shadow])

namespace VRZRepository

lemma checkZone_of_invalidated (symbol : String) (current_candle : Candle)
    (zone : Zone) (h : zone.status = ZoneStatus.invalidated) :
    checkZone symbol current_candle zone = zone := by
  rw [checkZone, if_neg]
  simp [h]

lemma checkZone_active_of_active (symbol : String) (current_candle : Candle)
    (zone : Zone) (h : (checkZone symbol current_candle zone).status = ZoneStatus.active) :
    zone.status = ZoneStatus.active := by
  rw [checkZone] at h
  split_ifs at h with h1 h2
  · simp [invalidate_zone] at h
  · exact h1.2
  · by_contra hne
    exact hne h

lemma check_and_invalidate_getD (symbol : String) (current_candle : Candle)
    (zones : List Zone) (i : ℕ) :
    (check_and_invalidate symbol current_candle zones).getD i default =
      if i < zones.length then checkZone symbol current_candle (zones.getD i default)
      else default := by
  by_cases hi : i < zones.length
  · rw [if_pos hi]
    rw [check_and_invalidate]
    rw [List.getD_eq_getElem?_getD, List.getD_eq_getElem?_getD,
      List.getElem?_map]
    rw [List.getElem?_eq_getElem hi]
    simp
  · rw [if_neg hi]
    rw [check_and_invalidate]
    rw [List.getD_eq_getElem?_getD, List.getElem?_map]
    rw [List.getElem?_eq_none (by simpa using not_lt.mp hi)]
    rfl

lemma apply_candles_of_invalidated (symbol : String) (candles : List Candle)
    (zones : List Zone) (i : ℕ)
    (h : (zones.getD i default).status = ZoneStatus.invalidated) :
    (apply_candles symbol candles zones).getD i default = zones.getD i default := by
  induction candles generalizing zones with
  | nil => rfl
  | cons c cs ih =>
    have hi : i < zones.length := by
      by_contra hlen
      rw [List.getD_eq_getElem?_getD, List.getElem?_eq_none
        (by simpa using not_lt.mp hlen)] at h
      simp [default] at h
    have hstep : (check_and_invalidate symbol c zones).getD i default =
        zones.getD i default := by
      rw [check_and_invalidate_getD, if_pos hi, checkZone_of_invalidated _ _ _ h]
    have h2 := ih (check_and_invalidate symbol c zones) (by rw [hstep]; exact h)
    simp only [apply_candles, List.foldl_cons] at h2 ⊢
    rw [h2, hstep]

end VRZRepository

/-- C4: zone invalidation through `check_and_invalidate` is one-way — an
invalidated zone document is left untouched by the per-candle step (it is
outside the `status: 'active'` query, so it is never evaluated for breach
again), a zone active after a step was active before it (no
invalidated→active transition ever happens), and over any candle sequence
an invalidated zone stays exactly as it was; the collection's length never
changes. -/
theorem claim_C4_invalidation_one_way :
    (∀ (symbol : String) (current_candle : Candle) (zone : Zone),
      zone.status = ZoneStatus.invalidated →
      VRZRepository.checkZone symbol current_candle zone = zone) ∧
    (∀ (symbol : String) (current_candle : Candle) (zone : Zone),
      (VRZRepository.checkZone symbol current_candle zone).status = ZoneStatus.active →
      zone.status = ZoneStatus.active) ∧
    (∀ (symbol : String) (candles : List Candle) (zones : List Zone) (i : ℕ),
      (zones.getD i default).status = ZoneStatus.invalidated →
      (VRZRepository.apply_candles symbol candles zones).getD i default =
        zones.getD i default) ∧
    (∀ (symbol : String) (candles : List Candle) (zones : List Zone),
      (VRZRepository.apply_candles symbol candles zones).length = zones.length) := by
  refine ⟨VRZRepository.checkZone_of_invalidated,
    VRZRepository.checkZone_active_of_active,
    VRZRepository.apply_candles_of_invalidated, ?_⟩
  intro symbol candles zones
  induction candles generalizing zones with
  | nil => rfl
  | cons c cs ih =>
    simp only [VRZRepository.apply_candles, List.foldl_cons] at ih ⊢
    rw [ih]
    simp [VRZRepository.check_and_invalidate]

/-- Closed witness for C4: an already-invalidated resistance zone is left
untouched by a candle whose high pierces its upper bound. -/
theorem claim_C4_invalidation_one_way_witness :
    (VRZRepository.apply_candles "BTCUSD" [⟨0, 0, 200, 0, 150, 0⟩]
      [⟨"BTCUSD", "1h", ZoneType.resistance, 100, 103/10 + 100, 997/10,
        ZoneStatus.invalidated, none⟩]).getD 0 default =
      ⟨"BTCUSD", "1h", ZoneType.resistance, 100, 103/10 + 100, 997/10,
        ZoneStatus.invalidated, none⟩ := by
  have := claim_C4_invalidation_one_way.2.2.1 "BTCUSD" [⟨0, 0, 200, 0, 150, 0⟩]
    [⟨"BTCUSD", "1h", ZoneType.resistance, 100, 103/10 + 100, 997/10,
      ZoneStatus.invalidated, none⟩] 0 (by simp)
  rw [this]
  simp

namespace PositionManager

/-- In an exchange report with pairwise-distinct `product_id`s, the
first-match scan of the source's inner loop finds exactly the entry for
the requested instrument. -/
lemma find_first_match {l : List ExchangePosition} {pid : ℕ} {ep : ExchangePosition}
    (hnd : (l.map ExchangePosition.product_id).Nodup) (hmem : ep ∈ l)
    (hpid : ep.product_id = pid) :
    l.find? (fun e => decide (e.product_id = pid)) = some ep := by
  induction l with
  | nil => cases hmem
  | cons h t ih =>
    rw [List.map_cons, List.nodup_cons] at hnd
    rcases List.mem_cons.mp hmem with rfl | hmt
    · rw [List.find?_cons_of_pos _ (by simpa using hpid)]
    · by_cases hh : h.product_id = pid
      · exact absurd (by simpa using ⟨ep, hmt, by rw [hpid, hh]⟩) hnd.1
      · rw [List.find?_cons_of_neg _ (by simpa using hh)]
        exact ih hnd.2 hmt

lemma length_filterMap_eq_countP {α β : Type} (f : α → Option β) (l : List α) :
    (l.filterMap f).length = l.countP (fun a => (f a).isSome) := by
  induction l with
  | nil => rfl
  | cons h t ih =>
    rw [List.filterMap_cons, List.countP_cons]
    cases hf : f h <;> simp [hf, ih]

end PositionManager

/-- C9: against an exchange report keyed by instrument (pairwise-distinct
`product_id`s), `sync_with_exchange` reports exactly one `size_mismatch`
for each local open position whose matching exchange entry has an absolute
size different from the local remaining size, exactly one
`missing_on_exchange` for each local position with no matching entry, and
nothing else: a matching entry of equal absolute size contributes no
discrepancy, every reported discrepancy comes from some local position,
and each local position contributes at most one entry.  (The function
consumes both lists and returns only the discrepancy list: it performs no
corrective writes.) -/
theorem claim_C9_reconciliation (local_positions : List PositionManager.LocalPosition)
    (exchange_positions : List PositionManager.ExchangePosition)
    (hnd : (exchange_positions.map PositionManager.ExchangePosition.product_id).Nodup) :
    (∀ lp ∈ local_positions, ∀ ep ∈ exchange_positions,
      ep.product_id = lp.product_id → lp.remaining_size ≠ |ep.size| →
      PositionManager.Discrepancy.size_mismatch lp.position_id lp.symbol
          lp.remaining_size |ep.size| ∈
        PositionManager.sync_with_exchange local_positions exchange_positions) ∧
    (∀ lp ∈ local_positions, ∀ ep ∈ exchange_positions,
      ep.product_id = lp.product_id → lp.remaining_size = |ep.size| →
      PositionManager.reconcile_one exchange_positions lp = none) ∧
    (∀ lp ∈ local_positions,
      (∀ ep ∈ exchange_positions, ep.product_id ≠ lp.product_id) →
      PositionManager.Discrepancy.missing_on_exchange lp.position_id lp.symbol ∈
        PositionManager.sync_with_exchange local_positions exchange_positions) ∧
    (∀ d ∈ PositionManager.sync_with_exchange local_positions exchange_positions,
      ∃ lp ∈ local_positions, PositionManager.reconcile_one exchange_positions lp = some d) ∧
    (PositionManager.sync_with_exchange local_positions exchange_positions).length =
      local_positions.countP
        (fun lp => (PositionManager.reconcile_one exchange_positions lp).isSome) := by
  refine ⟨?_, ?_, ?_, ?_, ?_⟩
  · intro lp hlp ep hep hpid hsz
    refine List.mem_filterMap.mpr ⟨lp, hlp, ?_⟩
    rw [PositionManager.reconcile_one, PositionManager.find_first_match hnd hep hpid]
    simp [hsz]
  · intro lp hlp ep hep hpid hsz
    rw [PositionManager.reconcile_one, PositionManager.find_first_match hnd hep hpid]
    simp [hsz]
  · intro lp hlp hnone
    refine List.mem_filterMap.mpr ⟨lp, hlp, ?_⟩
    rw [PositionManager.reconcile_one, List.find?_eq_none.mpr
      (fun ep hep => by simpa using hnone ep hep)]
  · intro d hd
    exact List.mem_filterMap.mp hd
  · exact PositionManager.length_filterMap_eq_countP _ _

/-- Closed witness for C9: a local position of remaining size 5 against an
exchange entry of size 3 on the same instrument yields the size-mismatch
discrepancy. -/
theorem claim_C9_reconciliation_witness :
    PositionManager.Discrepancy.size_mismatch "pos1" "BTCUSD" 5 |(3 : ℤ)| ∈
      PositionManager.sync_with_exchange [⟨"pos1", 7, "BTCUSD", 5⟩] [⟨7, 3⟩] :=
  (claim_C9_reconciliation [⟨"pos1", 7, "BTCUSD", 5⟩] [⟨7, 3⟩] (by simp)).1
    ⟨"pos1", 7, "BTCUSD", 5⟩ (by simp) ⟨7, 3⟩ (by simp) rfl (by norm_num)

namespace ExitEngine

/-- Everything in the target loop's output is a `partialExit` action. -/
lemma mem_partial_exit_actions_shape {order_ok : Bool} {trade : Trade}
    {current_price : ℚ} {a : ExitAction}
    (ha : a ∈ partial_exit_actions order_ok trade current_price) :
    ∃ lvl px q r pnl, a = ExitAction.partialExit lvl px q r pnl := by
  obtain ⟨t, -, hsome⟩ := List.mem_filterMap.mp ha
  rw [execute_partial_exit] at hsome
  split_ifs at hsome
  all_goals first
    | exact ⟨_, _, _, _, _, (Option.some.inj hsome).symm⟩
    | exact Option.noConfusion hsome

/-- Everything in the stop-loss phase's output is a `stopLossExit` action. -/
lemma mem_stop_loss_actions_shape {order_ok : Bool} {trade : Trade}
    {current_price : ℚ} {a : ExitAction}
    (ha : a ∈ stop_loss_actions order_ok trade current_price) :
    ∃ px q r pnl, a = ExitAction.stopLossExit px q r pnl := by
  rw [stop_loss_actions, execute_stop_loss_exit] at ha
  split_ifs at ha
  all_goals simp only [Option.toList_some, Option.toList_none, List.mem_singleton,
    List.not_mem_nil] at ha
  all_goals first
    | exact ⟨_, _, _, _, ha⟩
    | exact absurd ha (by simp)

/-- A trail-stop action is emitted exactly when the trailing conditions of
the source fire. -/
lemma trailStop_mem_manage_exits_iff (order_ok : Bool) (trade : Trade)
    (current_price : ℚ) (ns : ℚ) :
    ExitAction.trailStop ns ∈ manage_exits order_ok trade current_price ↔
      (should_trail_stop trade = true ∧
        calculate_trailing_stop trade current_price = some ns) := by
  rw [manage_exits, List.append_assoc]
  rw [List.mem_append, List.mem_append]
  constructor
  · rintro (h | h | h)
    · obtain ⟨lvl, px, q, r, pnl, hshape⟩ := mem_partial_exit_actions_shape h
      exact ExitAction.noConfusion hshape
    · obtain ⟨px, q, r, pnl, hshape⟩ := mem_stop_loss_actions_shape h
      exact ExitAction.noConfusion hshape
    · rw [trail_stop_actions] at h
      split_ifs at h with hs
      · cases hc : calculate_trailing_stop trade current_price with
        | none => rw [hc] at h; simp at h
        | some x =>
          rw [hc] at h
          simp only [Option.map_some', Option.toList_some, List.mem_singleton,
            ExitAction.trailStop.injEq] at h
          exact ⟨hs, by rw [h]⟩
      · simp at h
  · rintro ⟨hs, hc⟩
    refine Or.inr (Or.inr ?_)
    rw [trail_stop_actions, if_pos hs, hc]
    simp

/-- At most one trail-stop action per evaluation. -/
lemma countP_trailStop_le_one (order_ok : Bool) (trade : Trade) (current_price : ℚ) :
    (manage_exits order_ok trade current_price).countP isTrailStopAction ≤ 1 := by
  rw [manage_exits, List.countP_append, List.countP_append]
  have h1 : (partial_exit_actions order_ok trade current_price).countP
      isTrailStopAction = 0 := by
    rw [List.countP_eq_zero]
    intro a ha
    obtain ⟨lvl, px, q, r, pnl, rfl⟩ := mem_partial_exit_actions_shape ha
    simp [isTrailStopAction]
  have h2 : (stop_loss_actions order_ok trade current_price).countP
      isTrailStopAction = 0 := by
    rw [List.countP_eq_zero]
    intro a ha
    obtain ⟨px, q, r, pnl, rfl⟩ := mem_stop_loss_actions_shape ha
    simp [isTrailStopAction]
  have h3 : (trail_stop_actions trade current_price).countP isTrailStopAction ≤ 1 := by
    calc (trail_stop_actions trade current_price).countP isTrailStopAction
        ≤ (trail_stop_actions trade current_price).length := List.countP_le_length _
      _ ≤ 1 := by
          rw [trail_stop_actions]
          split_ifs
          · cases calculate_trailing_stop trade current_price <;> simp
          · simp
  omega

end ExitEngine

/-- C2 counterexample: a buy position with remaining size 10 and two
untouched 50% targets at 101 and 102, evaluated at price 103 with
succeeding orders, emits two partial exits of 5 contracts each — the
second is computed from the *initial* remaining size 10, not from the
size 5 left after the first exit, which per the claim would be
`max 1 (int(5 · 50/100)) = 2` contracts, not 5. -/
theorem claim_C2_partial_exit_counterexample :
    ExitEngine.manage_exits true
      { side := Side.buy, entry_price := 100, stop_loss := 90, remaining_size := 10,
        targets := [⟨1, 101, 50⟩, ⟨2, 102, 50⟩], exit_details := [] } 103 =
      [ExitEngine.ExitAction.partialExit 1 103 5 5 15,
       ExitEngine.ExitAction.partialExit 2 103 5 5 15] ∧
    max 1 (ratTrunc (((10 : ℤ) - 5 : ℚ) * (50 / 100))) = 2 ∧
    (2 : ℤ) ≠ 5 := by
  refine ⟨?_, by norm_num [ratTrunc], by norm_num⟩
  norm_num [ExitEngine.manage_exits, ExitEngine.partial_exit_actions,
    ExitEngine.stop_loss_actions, ExitEngine.trail_stop_actions,
    ExitEngine.execute_partial_exit, ExitEngine.execute_stop_loss_exit,
    ExitEngine.should_trail_stop, ExitEngine.calculate_trailing_stop,
    ExitEngine.is_target_hit, ExitEngine.is_stop_loss_hit, ratTrunc,
    List.filterMap_cons]

/-- C2 amended: in a single `manage_exits` evaluation with several targets
hit, **every** emitted `partialExit` computes its quantity from the
remaining size as it stood at the start of the evaluation —
`max 1 (int(remainingSize · exitPercentage/100))` — not from a size
reduced by the earlier partial exits of the same update (the trade dict is
never written between loop iterations); the realized PnL of each slice is
`(exitPrice − entry) · qty` for buy and `(entry − exitPrice) · qty` for
sell, and conversely every not-yet-filled hit target yields exactly such
an action when the order succeeds. -/
theorem claim_C2_partial_exit_amended (order_ok : Bool) (trade : ExitEngine.Trade)
    (current_price : ℚ) :
    (∀ lvl px q r pnl,
      ExitEngine.ExitAction.partialExit lvl px q r pnl ∈
          ExitEngine.manage_exits order_ok trade current_price →
      order_ok = true ∧ px = current_price ∧
      ∃ t ∈ trade.targets, t.level = lvl ∧
        t.level ∉ trade.exit_details.map ExitEngine.ExitDetail.target_level ∧
        ExitEngine.is_target_hit current_price t.price trade.side = true ∧
        q = max 1 (ratTrunc ((trade.remaining_size : ℚ) * (t.exit_percentage / 100))) ∧
        r = trade.remaining_size - q ∧
        pnl = (match trade.side with
               | Side.buy => current_price - trade.entry_price
               | Side.sell => trade.entry_price - current_price) * (q : ℚ)) ∧
    (order_ok = true → ∀ t ∈ trade.targets,
      t.level ∉ trade.exit_details.map ExitEngine.ExitDetail.target_level →
      ExitEngine.is_target_hit current_price t.price trade.side = true →
      ExitEngine.ExitAction.partialExit t.level current_price
          (max 1 (ratTrunc ((trade.remaining_size : ℚ) * (t.exit_percentage / 100))))
          (trade.remaining_size -
            max 1 (ratTrunc ((trade.remaining_size : ℚ) * (t.exit_percentage / 100))))
          ((match trade.side with
            | Side.buy => current_price - trade.entry_price
            | Side.sell => trade.entry_price - current_price) *
            ((max 1 (ratTrunc ((trade.remaining_size : ℚ) *
              (t.exit_percentage / 100))) : ℤ) : ℚ)) ∈
        ExitEngine.manage_exits order_ok trade current_price) := by
  constructor
  · intro lvl px q r pnl hmem
    rw [ExitEngine.manage_exits, List.append_assoc, List.mem_append,
      List.mem_append] at hmem
    rcases hmem with h | h | h
    · obtain ⟨sd, ep, sl, rs, tg, ed⟩ := trade
      obtain ⟨t, ht, hsome⟩ := List.mem_filterMap.mp h
      cases order_ok with
      | false =>
        exfalso
        rw [ExitEngine.execute_partial_exit] at hsome
        split_ifs at hsome <;> simp_all
      | true =>
        rw [ExitEngine.execute_partial_exit] at hsome
        split_ifs at hsome with hcond
        cases sd with
        | buy =>
          have heq := Option.some.inj hsome
          injection heq with e1 e2 e3 e4 e5
          subst e1; subst e2; subst e3; subst e4; subst e5
          exact ⟨rfl, rfl, t, ht, rfl, hcond.1, hcond.2, rfl, rfl, rfl⟩
        | sell =>
          have heq := Option.some.inj hsome
          injection heq with e1 e2 e3 e4 e5
          subst e1; subst e2; subst e3; subst e4; subst e5
          exact ⟨rfl, rfl, t, ht, rfl, hcond.1, hcond.2, rfl, rfl, rfl⟩
    · obtain ⟨px', q', r', pnl', hshape⟩ := ExitEngine.mem_stop_loss_actions_shape h
      exact ExitEngine.ExitAction.noConfusion hshape
    · rw [ExitEngine.trail_stop_actions] at h
      split_ifs at h
      · cases hc : ExitEngine.calculate_trailing_stop trade current_price with
        | none => rw [hc] at h; simp at h
        | some x =>
          rw [hc] at h
          simp only [Option.map_some', Option.toList_some, List.mem_singleton] at h
          exact ExitEngine.ExitAction.noConfusion h
      · simp at h
  · intro hok t ht hnl hhit
    subst hok
    rw [ExitEngine.manage_exits, List.append_assoc, List.mem_append]
    refine Or.inl (List.mem_filterMap.mpr ⟨t, ht, ?_⟩)
    rw [if_pos ⟨hnl, hhit⟩, ExitEngine.execute_partial_exit, if_pos rfl]
    obtain ⟨sd, ep, sl, rs, tg, ed⟩ := trade
    cases sd <;> rfl

/-- Closed witness for the amended C2: the second 50% target of the
counterexample trade emits a partial exit computed from the full
remaining size 10. -/
theorem claim_C2_partial_exit_amended_witness :
    ExitEngine.ExitAction.partialExit 2 103
        (max 1 (ratTrunc ((10 : ℚ) * (50 / 100))))
        (10 - max 1 (ratTrunc ((10 : ℚ) * (50 / 100))))
        ((103 - 100) * ((max 1 (ratTrunc ((10 : ℚ) * (50 / 100))) : ℤ) : ℚ)) ∈
      ExitEngine.manage_exits true
        { side := Side.buy, entry_price := 100, stop_loss := 90, remaining_size := 10,
          targets := [⟨1, 101, 50⟩, ⟨2, 102, 50⟩], exit_details := [] } 103 := by
  have := (claim_C2_partial_exit_amended true
    { side := Side.buy, entry_price := 100, stop_loss := 90, remaining_size := 10,
      targets := [⟨1, 101, 50⟩, ⟨2, 102, 50⟩], exit_details := [] } 103).2 rfl
    ⟨2, 102, 50⟩ (by simp) (by simp)
    (by norm_num [ExitEngine.is_target_hit])
  simpa using this

/-- C3: once a position has at least one recorded exit and positive
remaining size, `manage_exits` emits a trail-stop action exactly when the
price is favorably past entry and the stop is still on the unfavorable
side of entry; the new stop is always the entry price; at most one
trail-stop action is emitted per evaluation; once the stop equals entry,
no evaluation at any price ever emits another one.  In particular the buy
position (entry 100, stop 90, one partial recorded) at price 105 emits
exactly the single action moving the stop to 100, and with the stop at
100 a later update to 110 emits nothing. -/
theorem claim_C3_breakeven_trailing (order_ok : Bool) (trade : ExitEngine.Trade)
    (current_price : ℚ) :
    (trade.exit_details ≠ [] → 0 < trade.remaining_size →
      ((∃ ns, ExitEngine.ExitAction.trailStop ns ∈
          ExitEngine.manage_exits order_ok trade current_price) ↔
        (match trade.side with
         | Side.buy =>
           trade.entry_price < current_price ∧ trade.stop_loss < trade.entry_price
         | Side.sell =>
           current_price < trade.entry_price ∧ trade.entry_price < trade.stop_loss))) ∧
    (∀ ns, ExitEngine.ExitAction.trailStop ns ∈
        ExitEngine.manage_exits order_ok trade current_price →
      ns = trade.entry_price) ∧
    ((ExitEngine.manage_exits order_ok trade current_price).countP
      ExitEngine.isTrailStopAction ≤ 1) ∧
    (trade.stop_loss = trade.entry_price →
      ∀ ns, ExitEngine.ExitAction.trailStop ns ∉
        ExitEngine.manage_exits order_ok trade current_price) ∧
    (ExitEngine.manage_exits true
        ⟨Side.buy, 100, 90, 5, [⟨1, 101, 50⟩], [⟨1⟩]⟩ 105 =
      [ExitEngine.ExitAction.trailStop 100]) ∧
    (ExitEngine.manage_exits true
        ⟨Side.buy, 100, 100, 5, [⟨1, 101, 50⟩], [⟨1⟩]⟩ 110 = []) := by
  obtain ⟨sd, ep, sl, rs, tg, ed⟩ := trade
  refine ⟨?_, ?_, ExitEngine.countP_trailStop_le_one order_ok _ current_price,
    ?_, ?_, ?_⟩
  · intro hd hr
    have hst : ExitEngine.should_trail_stop ⟨sd, ep, sl, rs, tg, ed⟩ = true := by
      rw [ExitEngine.should_trail_stop]
      simp only [Bool.and_eq_true, decide_eq_true_eq]
      exact ⟨List.length_pos.mpr hd, hr⟩
    cases sd with
    | buy =>
      constructor
      · rintro ⟨ns, hmem⟩
        obtain ⟨-, hcalc⟩ := (ExitEngine.trailStop_mem_manage_exits_iff order_ok
          ⟨Side.buy, ep, sl, rs, tg, ed⟩ current_price ns).mp hmem
        have hcalc' : (if ep < current_price ∧ sl < ep then some ep else none) =
            some ns := hcalc
        split_ifs at hcalc' with hc
        exact hc
      · intro hcond
        refine ⟨ep, (ExitEngine.trailStop_mem_manage_exits_iff order_ok
          ⟨Side.buy, ep, sl, rs, tg, ed⟩ current_price ep).mpr ⟨hst, ?_⟩⟩
        show (if ep < current_price ∧ sl < ep then some ep else none) = some ep
        exact if_pos hcond
    | sell =>
      constructor
      · rintro ⟨ns, hmem⟩
        obtain ⟨-, hcalc⟩ := (ExitEngine.trailStop_mem_manage_exits_iff order_ok
          ⟨Side.sell, ep, sl, rs, tg, ed⟩ current_price ns).mp hmem
        have hcalc' : (if current_price < ep ∧ ep < sl then some ep else none) =
            some ns := hcalc
        split_ifs at hcalc' with hc
        exact hc
      · intro hcond
        refine ⟨ep, (ExitEngine.trailStop_mem_manage_exits_iff order_ok
          ⟨Side.sell, ep, sl, rs, tg, ed⟩ current_price ep).mpr ⟨hst, ?_⟩⟩
        show (if current_price < ep ∧ ep < sl then some ep else none) = some ep
        exact if_pos hcond
  · intro ns hmem
    obtain ⟨-, hcalc⟩ := (ExitEngine.trailStop_mem_manage_exits_iff order_ok
      ⟨sd, ep, sl, rs, tg, ed⟩ current_price ns).mp hmem
    cases sd with
    | buy =>
      have hcalc' : (if ep < current_price ∧ sl < ep then some ep else none) =
          some ns := hcalc
      split_ifs at hcalc' with hc
      exact (Option.some.inj hcalc').symm
    | sell =>
      have hcalc' : (if current_price < ep ∧ ep < sl then some ep else none) =
          some ns := hcalc
      split_ifs at hcalc' with hc
      exact (Option.some.inj hcalc').symm
  · intro hsl ns hmem
    obtain ⟨-, hcalc⟩ := (ExitEngine.trailStop_mem_manage_exits_iff order_ok
      ⟨sd, ep, sl, rs, tg, ed⟩ current_price ns).mp hmem
    replace hsl : sl = ep := hsl
    cases sd with
    | buy =>
      have hcalc' : (if ep < current_price ∧ sl < ep then some ep else none) =
          some ns := hcalc
      split_ifs at hcalc' with hc
      exact absurd (hsl ▸ hc.2) (lt_irrefl ep)
    | sell =>
      have hcalc' : (if current_price < ep ∧ ep < sl then some ep else none) =
          some ns := hcalc
      split_ifs at hcalc' with hc
      exact absurd (hsl ▸ hc.2) (lt_irrefl ep)
  · norm_num [ExitEngine.manage_exits, ExitEngine.partial_exit_actions,
      ExitEngine.stop_loss_actions, ExitEngine.trail_stop_actions,
      ExitEngine.execute_partial_exit, ExitEngine.execute_stop_loss_exit,
      ExitEngine.should_trail_stop, ExitEngine.calculate_trailing_stop,
      ExitEngine.is_target_hit, ExitEngine.is_stop_loss_hit,
      List.filterMap_cons]
  · norm_num [ExitEngine.manage_exits, ExitEngine.partial_exit_actions,
      ExitEngine.stop_loss_actions, ExitEngine.trail_stop_actions,
      ExitEngine.execute_partial_exit, ExitEngine.execute_stop_loss_exit,
      ExitEngine.should_trail_stop, ExitEngine.calculate_trailing_stop,
      ExitEngine.is_target_hit, ExitEngine.is_stop_loss_hit,
      List.filterMap_cons]

/-- Closed witness for C3: the example position does emit a trail-stop at
price 105. -/
theorem claim_C3_breakeven_trailing_witness :
    ∃ ns, ExitEngine.ExitAction.trailStop ns ∈
      ExitEngine.manage_exits true
        ⟨Side.buy, 100, 90, 5, [⟨1, 101, 50⟩], [⟨1⟩]⟩ 105 :=
  ((claim_C3_breakeven_trailing true
      ⟨Side.buy, 100, 90, 5, [⟨1, 101, 50⟩], [⟨1⟩]⟩ 105).1
    (by simp) (by norm_num)).mpr (by norm_num)

/-- The first `n` entries of a list stably sorted by a rational key are
pairwise ordered, come from the list, and — whenever some element is left
out — form a full block of `n` elements each with key at most the excluded
element's key. -/
lemma take_mergeSort_spec {α : Type} (l : List α) (f : α → ℚ) (n : ℕ) :
    (∀ z ∈ (l.mergeSort fun a b => decide (f a ≤ f b)).take n, z ∈ l) ∧
    ((l.mergeSort fun a b => decide (f a ≤ f b)).take n).length ≤ n ∧
    ((l.mergeSort fun a b => decide (f a ≤ f b)).take n).Pairwise
      (fun a b => f a ≤ f b) ∧
    (∀ z ∈ l, z ∉ (l.mergeSort fun a b => decide (f a ≤ f b)).take n →
      ((l.mergeSort fun a b => decide (f a ≤ f b)).take n).length = n ∧
      ∀ y ∈ (l.mergeSort fun a b => decide (f a ≤ f b)).take n, f y ≤ f z) := by
  have hperm : (l.mergeSort fun a b => decide (f a ≤ f b)).Perm l :=
    List.mergeSort_perm l _
  have hsorted : (l.mergeSort fun a b => decide (f a ≤ f b)).Pairwise
      (fun a b => f a ≤ f b) := by
    have := @List.sorted_mergeSort α (fun a b => decide (f a ≤ f b))
      (fun a b c hab hbc => by
        simp only [decide_eq_true_eq] at hab hbc ⊢
        exact le_trans hab hbc)
      (fun a b => by
        simp only [Bool.or_eq_true, decide_eq_true_eq]
        exact le_total (f a) (f b)) l
    exact this.imp (by simp)
  refine ⟨?_, ?_, ?_, ?_⟩
  · intro z hz
    exact hperm.mem_iff.mp (List.mem_of_mem_take hz)
  · rw [List.length_take]
    exact inf_le_left
  · exact List.Pairwise.sublist (List.take_sublist n _) hsorted
  · intro z hzl hznot
    have hzs : z ∈ l.mergeSort fun a b => decide (f a ≤ f b) := hperm.mem_iff.mpr hzl
    have hzdrop : z ∈ (l.mergeSort fun a b => decide (f a ≤ f b)).drop n := by
      rcases List.mem_append.mp
          (by rw [List.take_append_drop n]; exact hzs) with h | h
      · exact absurd h hznot
      · exact h
    have hlen : n < (l.mergeSort fun a b => decide (f a ≤ f b)).length := by
      by_contra hle
      push_neg at hle
      rw [List.take_of_length_le hle] at hznot
      exact hznot hzs
    have hsorted' : ((l.mergeSort fun a b => decide (f a ≤ f b)).take n ++
        (l.mergeSort fun a b => decide (f a ≤ f b)).drop n).Pairwise
        (fun a b => f a ≤ f b) := by
      rw [List.take_append_drop]
      exact hsorted
    refine ⟨?_, ?_⟩
    · rw [List.length_take]
      exact inf_eq_left.mpr hlen.le
    · intro y hy
      exact (List.pairwise_append.mp hsorted').2.2 y hy z hzdrop

/-- C5 counterexample: with active resistance zones A (center 99, bounds
98.7–99.3) and B (center 105, bounds 104.7–105.3), price 100 and
`limit = 1`, zone B is the unique active resistance zone strictly above
the price — so it is trivially among the 1 nearest such zones — yet the
nearest-zone query returns the empty list: the source truncates to the
`limit` nearest *before* applying the bound filter, and the closer
non-qualifying zone A crowds B out. -/
theorem claim_C5_nearest_zones_counterexample :
    (VRZCalculator.get_active_zones
      [⟨"S", "1h", ZoneType.resistance, 99, 993/10, 987/10, ZoneStatus.active, none⟩,
       ⟨"S", "1h", ZoneType.resistance, 105, 1053/10, 1047/10, ZoneStatus.active, none⟩]
      "S" "1h" 100 1).1 = [] ∧
    [⟨"S", "1h", ZoneType.resistance, 99, 993/10, 987/10, ZoneStatus.active, none⟩,
     ⟨"S", "1h", ZoneType.resistance, 105, 1053/10, 1047/10, ZoneStatus.active,
       none⟩].filter
      (fun z : Zone => VRZRepository.zoneMatches "S" "1h" ZoneType.resistance z &&
        decide ((100 : ℚ) < z.zone_lower)) =
    [⟨"S", "1h", ZoneType.resistance, 105, 1053/10, 1047/10, ZoneStatus.active,
      none⟩] := by
  constructor
  · have hms : ([⟨"S", "1h", ZoneType.resistance, 99, 993/10, 987/10,
        ZoneStatus.active, none⟩,
        ⟨"S", "1h", ZoneType.resistance, 105, 1053/10, 1047/10, ZoneStatus.active,
          none⟩] : List Zone).mergeSort
        (fun a b => decide (|a.price_level - (100 : ℚ)| ≤ |b.price_level - 100|)) =
        [⟨"S", "1h", ZoneType.resistance, 99, 993/10, 987/10, ZoneStatus.active, none⟩,
         ⟨"S", "1h", ZoneType.resistance, 105, 1053/10, 1047/10, ZoneStatus.active,
           none⟩] := by
      refine List.mergeSort_of_sorted ?_
      norm_num [List.pairwise_cons]
    simp only [VRZCalculator.get_active_zones, VRZRepository.get_nearest_zones]
    norm_num [VRZRepository.zoneMatches, List.filter]
    rw [hms]
    norm_num [List.filter]
  · norm_num [VRZRepository.zoneMatches, List.filter]

/-- What the nearest-zone query really returns: the `limit` nearest
matching active documents by center distance (before any bound
filtering). -/
lemma get_nearest_zones_spec (zones : List Zone) (sym tf : String) (p : ℚ)
    (zt : ZoneType) (limit : ℕ)
    (hcap : (zones.filter (VRZRepository.zoneMatches sym tf zt)).length ≤ 100) :
    (∀ z ∈ VRZRepository.get_nearest_zones zones sym tf p zt limit,
      z ∈ zones ∧ VRZRepository.zoneMatches sym tf zt z = true) ∧
    (VRZRepository.get_nearest_zones zones sym tf p zt limit).length ≤ limit ∧
    (VRZRepository.get_nearest_zones zones sym tf p zt limit).Pairwise
      (fun a b => |a.price_level - p| ≤ |b.price_level - p|) ∧
    (∀ z ∈ zones, VRZRepository.zoneMatches sym tf zt z = true →
      z ∉ VRZRepository.get_nearest_zones zones sym tf p zt limit →
      (VRZRepository.get_nearest_zones zones sym tf p zt limit).length = limit ∧
      ∀ y ∈ VRZRepository.get_nearest_zones zones sym tf p zt limit,
        |y.price_level - p| ≤ |z.price_level - p|) := by
  have hm : (zones.filter (VRZRepository.zoneMatches sym tf zt)).take 100 =
      zones.filter (VRZRepository.zoneMatches sym tf zt) := List.take_of_length_le hcap
  have hnr : VRZRepository.get_nearest_zones zones sym tf p zt limit =
      ((zones.filter (VRZRepository.zoneMatches sym tf zt)).mergeSort
        (fun a b => decide (|a.price_level - p| ≤ |b.price_level - p|))).take limit := by
    simp only [VRZRepository.get_nearest_zones]
    rw [hm]
  have hspec := take_mergeSort_spec (zones.filter (VRZRepository.zoneMatches sym tf zt))
    (fun z => |z.price_level - p|) limit
  rw [hnr]
  refine ⟨?_, hspec.2.1, hspec.2.2.1, ?_⟩
  · intro z hz
    exact List.mem_filter.mp (hspec.1 z hz)
  · intro z hzl hM hznot
    exact hspec.2.2.2 z (List.mem_filter.mpr ⟨hzl, hM⟩) hznot

/-- C5 amended: the nearest-zone query first takes the `limit` active
zones of the requested type nearest to the price by
`|priceLevel − currentPrice|` — including zones on the wrong side of the
price — and only then filters to zones strictly above the price
(resistance, `zone_lower > price`) or strictly below it (support,
`zone_upper < price`).  Consequently the result contains exactly the
qualifying members of the `limit` nearest zones ignoring the filter (it
is sorted by distance and has at most `limit` entries), and any matching
active zone left out of that nearest block is at least as far from the
price as everything in it.  (The hypotheses cap the matching documents at
the source's `to_list(length=100)` cursor limit.) -/
theorem claim_C5_nearest_zones_amended (zones : List Zone) (sym tf : String)
    (p : ℚ) (limit : ℕ)
    (hcapR : (zones.filter
      (VRZRepository.zoneMatches sym tf ZoneType.resistance)).length ≤ 100)
    (hcapS : (zones.filter
      (VRZRepository.zoneMatches sym tf ZoneType.support)).length ≤ 100) :
    ((VRZCalculator.get_active_zones zones sym tf p limit).1 =
      (VRZRepository.get_nearest_zones zones sym tf p ZoneType.resistance limit).filter
        (fun z => decide (p < z.zone_lower))) ∧
    (∀ z, z ∈ (VRZCalculator.get_active_zones zones sym tf p limit).1 ↔
      (z ∈ VRZRepository.get_nearest_zones zones sym tf p ZoneType.resistance limit ∧
        p < z.zone_lower)) ∧
    (∀ z ∈ (VRZCalculator.get_active_zones zones sym tf p limit).1,
      z ∈ zones ∧ z.symbol = sym ∧ z.timeframe = tf ∧ z.status = ZoneStatus.active ∧
        z.type = ZoneType.resistance ∧ p < z.zone_lower) ∧
    ((VRZCalculator.get_active_zones zones sym tf p limit).1.length ≤ limit) ∧
    ((VRZCalculator.get_active_zones zones sym tf p limit).1.Pairwise
      (fun a b => |a.price_level - p| ≤ |b.price_level - p|)) ∧
    (∀ z ∈ zones, VRZRepository.zoneMatches sym tf ZoneType.resistance z = true →
      z ∉ VRZRepository.get_nearest_zones zones sym tf p ZoneType.resistance limit →
      (VRZRepository.get_nearest_zones zones sym tf p ZoneType.resistance limit).length
          = limit ∧
      ∀ y ∈ VRZRepository.get_nearest_zones zones sym tf p ZoneType.resistance limit,
        |y.price_level - p| ≤ |z.price_level - p|) ∧
    ((VRZCalculator.get_active_zones zones sym tf p limit).2 =
      (VRZRepository.get_nearest_zones zones sym tf p ZoneType.support limit).filter
        (fun z => decide (z.zone_upper < p))) ∧
    (∀ z, z ∈ (VRZCalculator.get_active_zones zones sym tf p limit).2 ↔
      (z ∈ VRZRepository.get_nearest_zones zones sym tf p ZoneType.support limit ∧
        z.zone_upper < p)) ∧
    (∀ z ∈ (VRZCalculator.get_active_zones zones sym tf p limit).2,
      z ∈ zones ∧ z.symbol = sym ∧ z.timeframe = tf ∧ z.status = ZoneStatus.active ∧
        z.type = ZoneType.support ∧ z.zone_upper < p) ∧
    ((VRZCalculator.get_active_zones zones sym tf p limit).2.length ≤ limit) ∧
    ((VRZCalculator.get_active_zones zones sym tf p limit).2.Pairwise
      (fun a b => |a.price_level - p| ≤ |b.price_level - p|)) ∧
    (∀ z ∈ zones, VRZRepository.zoneMatches sym tf ZoneType.support z = true →
      z ∉ VRZRepository.get_nearest_zones zones sym tf p ZoneType.support limit →
      (VRZRepository.get_nearest_zones zones sym tf p ZoneType.support limit).length
          = limit ∧
      ∀ y ∈ VRZRepository.get_nearest_zones zones sym tf p ZoneType.support limit,
        |y.price_level - p| ≤ |z.price_level - p|) := by
  have hR := get_nearest_zones_spec zones sym tf p ZoneType.resistance limit hcapR
  have hS := get_nearest_zones_spec zones sym tf p ZoneType.support limit hcapS
  have hres : (VRZCalculator.get_active_zones zones sym tf p limit).1 =
      (VRZRepository.get_nearest_zones zones sym tf p ZoneType.resistance limit).filter
        (fun z => decide (p < z.zone_lower)) := by
    simp only [VRZCalculator.get_active_zones]
    apply List.take_of_length_le
    calc ((VRZRepository.get_nearest_zones zones sym tf p ZoneType.resistance
            limit).filter (fun z => decide (p < z.zone_lower))).length
        ≤ (VRZRepository.get_nearest_zones zones sym tf p ZoneType.resistance
            limit).length := List.length_filter_le _ _
      _ ≤ limit := hR.2.1
  have hsup : (VRZCalculator.get_active_zones zones sym tf p limit).2 =
      (VRZRepository.get_nearest_zones zones sym tf p ZoneType.support limit).filter
        (fun z => decide (z.zone_upper < p)) := by
    simp only [VRZCalculator.get_active_zones]
    apply List.take_of_length_le
    calc ((VRZRepository.get_nearest_zones zones sym tf p ZoneType.support
            limit).filter (fun z => decide (z.zone_upper < p))).length
        ≤ (VRZRepository.get_nearest_zones zones sym tf p ZoneType.support
            limit).length := List.length_filter_le _ _
      _ ≤ limit := hS.2.1
  refine ⟨hres, ?_, ?_, ?_, ?_, hR.2.2.2, hsup, ?_, ?_, ?_, ?_, hS.2.2.2⟩
  · intro z
    rw [hres, List.mem_filter]
    simp
  · intro z hz
    rw [hres, List.mem_filter] at hz
    obtain ⟨hzn, hq⟩ := hz
    obtain ⟨hzz, hM⟩ := hR.1 z hzn
    rw [VRZRepository.zoneMatches, decide_eq_true_eq] at hM
    exact ⟨hzz, hM.1, hM.2.1, hM.2.2.1, hM.2.2.2, by simpa using hq⟩
  · rw [hres]
    calc ((VRZRepository.get_nearest_zones zones sym tf p ZoneType.resistance
            limit).filter (fun z => decide (p < z.zone_lower))).length
        ≤ (VRZRepository.get_nearest_zones zones sym tf p ZoneType.resistance
            limit).length := List.length_filter_le _ _
      _ ≤ limit := hR.2.1
  · rw [hres]
    exact List.Pairwise.sublist (List.filter_sublist _) hR.2.2.1
  · intro z
    rw [hsup, List.mem_filter]
    simp
  · intro z hz
    rw [hsup, List.mem_filter] at hz
    obtain ⟨hzn, hq⟩ := hz
    obtain ⟨hzz, hM⟩ := hS.1 z hzn
    rw [VRZRepository.zoneMatches, decide_eq_true_eq] at hM
    exact ⟨hzz, hM.1, hM.2.1, hM.2.2.1, hM.2.2.2, by simpa using hq⟩
  · rw [hsup]
    calc ((VRZRepository.get_nearest_zones zones sym tf p ZoneType.support
            limit).filter (fun z => decide (z.zone_upper < p))).length
        ≤ (VRZRepository.get_nearest_zones zones sym tf p ZoneType.support
            limit).length := List.length_filter_le _ _
      _ ≤ limit := hS.2.1
  · rw [hsup]
    exact List.Pairwise.sublist (List.filter_sublist _) hS.2.2.1

/-- Closed witness for the amended C5 at the counterexample input: with
zones A (99) and B (105), price 100 and limit 1, the resistance result is
exactly the qualifying part of the 1-nearest block. -/
theorem claim_C5_nearest_zones_amended_witness :
    (VRZCalculator.get_active_zones
      [⟨"S", "1h", ZoneType.resistance, 99, 993/10, 987/10, ZoneStatus.active, none⟩,
       ⟨"S", "1h", ZoneType.resistance, 105, 1053/10, 1047/10, ZoneStatus.active, none⟩]
      "S" "1h" 100 1).1 =
    (VRZRepository.get_nearest_zones
      [⟨"S", "1h", ZoneType.resistance, 99, 993/10, 987/10, ZoneStatus.active, none⟩,
       ⟨"S", "1h", ZoneType.resistance, 105, 1053/10, 1047/10, ZoneStatus.active, none⟩]
      "S" "1h" 100 ZoneType.resistance 1).filter
        (fun z => decide ((100 : ℚ) < z.zone_lower)) :=
  (claim_C5_nearest_zones_amended
    [⟨"S", "1h", ZoneType.resistance, 99, 993/10, 987/10, ZoneStatus.active, none⟩,
     ⟨"S", "1h", ZoneType.resistance, 105, 1053/10, 1047/10, ZoneStatus.active, none⟩]
    "S" "1h" 100 1
    (le_trans (List.length_filter_le _ _) (by norm_num))
    (le_trans (List.length_filter_le _ _) (by norm_num))).1

namespace EntryEngine

/-- A signal produced by `_create_long_signal` is always a buy signal. -/
lemma create_long_signal_side {min_risk_reward : ℚ} {us : UserSettings}
    {current_price : ℚ} {pattern : PatternDetector.Pattern}
    {support_zones resistance_zones : List Zone} {s : Signal}
    (h : create_long_signal min_risk_reward us current_price pattern
      support_zones resistance_zones = some s) : s.side = Side.buy := by
  simp only [create_long_signal] at h
  split_ifs at h
  all_goals
    obtain rfl := Option.some.inj h
    rfl

/-- A signal produced by `_create_short_signal` is always a sell signal. -/
lemma create_short_signal_side {min_risk_reward : ℚ} {us : UserSettings}
    {current_price : ℚ} {pattern : PatternDetector.Pattern}
    {resistance_zones support_zones : List Zone} {s : Signal}
    (h : create_short_signal min_risk_reward us current_price pattern
      resistance_zones support_zones = some s) : s.side = Side.sell := by
  simp only [create_short_signal] at h
  split_ifs at h
  all_goals
    obtain rfl := Option.some.inj h
    rfl

end EntryEngine

/-- C8: `scan_for_entry_signals` returns no signal — and, being total,
cannot raise to its caller — whenever fewer than 10 candles are available
or the current price (the last candle's close) is near no active zone of
either type; and a signal can only come out of the bullish-pattern with
nearby-support pairing (a buy signal) or the bearish-pattern with
nearby-resistance pairing (a sell signal): every other direction/zone
pairing yields none. -/
theorem claim_C8_entry_scan (scan_all : List Candle → ℕ → List PatternDetector.Pattern)
    (min_risk_reward : ℚ) (us : EntryEngine.UserSettings) (candles : List Candle)
    (resistance_zones support_zones : List Zone) :
    (candles.length < 10 →
      EntryEngine.scan_for_entry_signals scan_all min_risk_reward us candles
        resistance_zones support_zones = none) ∧
    (EntryEngine.find_nearby_zone ((candles.getD (candles.length - 1) default).close)
        resistance_zones = none →
      EntryEngine.find_nearby_zone ((candles.getD (candles.length - 1) default).close)
        support_zones = none →
      EntryEngine.scan_for_entry_signals scan_all min_risk_reward us candles
        resistance_zones support_zones = none) ∧
    (∀ s, EntryEngine.scan_for_entry_signals scan_all min_risk_reward us candles
        resistance_zones support_zones = some s →
      ((EntryEngine.best_pattern (scan_all candles (candles.length - 1))).direction =
          PatternDetector.Direction.bullish ∧
        EntryEngine.find_nearby_zone ((candles.getD (candles.length - 1) default).close)
          support_zones ≠ none ∧
        s.side = Side.buy) ∨
      ((EntryEngine.best_pattern (scan_all candles (candles.length - 1))).direction =
          PatternDetector.Direction.bearish ∧
        EntryEngine.find_nearby_zone ((candles.getD (candles.length - 1) default).close)
          resistance_zones ≠ none ∧
        s.side = Side.sell)) := by
  refine ⟨?_, ?_, ?_⟩
  · intro hl
    rw [EntryEngine.scan_for_entry_signals, if_pos hl]
  · intro h1 h2
    simp only [EntryEngine.scan_for_entry_signals]
    split_ifs with hl hn hp
    any_goals rfl
    all_goals exact absurd ⟨h1, h2⟩ hn
  · intro s hs
    simp only [EntryEngine.scan_for_entry_signals] at hs
    split_ifs at hs with hl hn hp
    cases hdir : (EntryEngine.best_pattern
        (scan_all candles (candles.length - 1))).direction with
    | bullish =>
      rw [hdir] at hs
      cases hns : EntryEngine.find_nearby_zone
          ((candles.getD (candles.length - 1) default).close) support_zones with
      | none => rw [hns] at hs; exact Option.noConfusion hs
      | some z =>
        rw [hns] at hs
        exact Or.inl ⟨rfl, by simp [hns], EntryEngine.create_long_signal_side hs⟩
    | bearish =>
      rw [hdir] at hs
      cases hnr : EntryEngine.find_nearby_zone
          ((candles.getD (candles.length - 1) default).close) resistance_zones with
      | none => rw [hnr] at hs; exact Option.noConfusion hs
      | some z =>
        rw [hnr] at hs
        exact Or.inr ⟨rfl, by simp [hnr], EntryEngine.create_short_signal_side hs⟩

/-- Closed witness for C8: with no candle history the scan yields no
signal. -/
theorem claim_C8_entry_scan_witness :
    EntryEngine.scan_for_entry_signals (fun _ _ => []) (3/2)
      ⟨10, "rr", [3/2, 2, 5/2], 3⟩ [] [] [] = none :=
  (claim_C8_entry_scan (fun _ _ => []) (3/2) ⟨10, "rr", [3/2, 2, 5/2], 3⟩
    [] [] []).1 (by norm_num)
